import Mathlib

/-!
Verification of the GenAI Stack Builder workflow engine.

The definitions below are a shallow embedding of the frontend workflow
logic (`src/frontend/src/hooks/useWorkflow.js` together with the api
module appended to it).  Node kinds are the literal type strings used by
the source (`"userQuery"`, `"knowledgeBase"`, `"llmEngine"`, `"output"`).
Presentation-only fields (canvas position, edge styling, React handles)
carry no behavior in any operation modelled here and are omitted.
-/

namespace StackBuilder

/-- Kind-specific configuration record attached to a node, mirroring the
`nodeData` table in `addNode`.  The JS `temperature` number `0.7` is
modelled as the rational `7/10`. -/
inductive NodeData where
  | userQuery (label : String)
  | knowledgeBase (label : String) (embeddingModel : String) (apiKey : String)
      (documents : List String)
  | llmEngine (label : String) (model : String) (temperature : ℚ) (prompt : String)
      (enableWebSearch : Bool) (serpApiKey : String)
  | output (label : String)
  | fallback (label : String)
  deriving Repr, DecidableEq

/-- A canvas node: an id string, a kind string, kind-specific data. -/
structure Node where
  id : String
  type : String
  data : NodeData
  deriving Repr, DecidableEq

/-- An edge between two nodes, by node id. -/
structure Edge where
  source : String
  target : String
  deriving Repr, DecidableEq, BEq

/-- The mutable state held by the `useWorkflow` hook: node list, edge
list, and the currently selected node. -/
structure WorkflowState where
  nodes : List Node
  edges : List Edge
  selectedNode : Option Node
  deriving Repr, DecidableEq

/-- The `nodeData` lookup table of `addNode`: a record of defaults for
each of the four known kinds, `none` for any other kind string. -/
def nodeDataFor (type : String) : Option NodeData :=
  if type == "userQuery" then
    some (.userQuery "User Query")
  else if type == "knowledgeBase" then
    some (.knowledgeBase "Knowledge Base" "text-embedding-3-large" "" [])
  else if type == "llmEngine" then
    some (.llmEngine "LLM Engine" "anthropic/claude-3.5-sonnet" (7/10)
      "You are a helpful assistant. Use the following context to answer the question.\n\nContext: \x7b\x7bcontext\x7d\x7d\n\nQuestion: \x7b\x7bquery\x7d\x7d\n\nAnswer:"
      false "")
  else if type == "output" then
    some (.output "Output")
  else
    none

/-- The function `addNode(type, position)`: build a node whose data is
`nodeData[type] || { label: type }` and append it to the node list.  The
freshly generated uuid is passed in as `id`. -/
def addNode (id : String) (type : String) (st : WorkflowState) : WorkflowState × Node :=
  let newNode : Node := { id := id, type := type,
                          data := (nodeDataFor type).getD (.fallback type) }
  ({ st with nodes := st.nodes ++ [newNode] }, newNode)

/-- The function `deleteNode(nodeId)`: drop the node, drop every edge touching it, and
clear the selection when the selected node is the one deleted. -/
def deleteNode (nodeId : String) (st : WorkflowState) : WorkflowState :=
  { nodes := st.nodes.filter (fun n => n.id != nodeId)
    edges := st.edges.filter (fun e => e.source != nodeId && e.target != nodeId)
    selectedNode :=
      match st.selectedNode with
      | some sel => if sel.id == nodeId then none else some sel
      | none => none }

/-- The verdict returned by `validateWorkflow`: `{valid: false, error}` or
`{valid: true}` (no error field, modelled as `none`). -/
structure ValidationResult where
  valid : Bool
  error : Option String
  deriving Repr, DecidableEq

/-- Error message of the missing-required-components check. -/
def missingComponentsMsg : String :=
  "Workflow must include User Query, LLM Engine, and Output components."

/-- Error message of the LLM-to-Output connectivity check. -/
def llmToOutputMsg : String := "LLM Engine must be connected to Output."

/-- Error message of the input-to-LLM connectivity check. -/
def inputToLLMMsg : String := "LLM Engine must have an input connection."

/-- The function `validateWorkflow()`: require at least one node of each of the three
kinds, then check an edge from the first-found `llmEngine` node to the
first-found `output` node, then check some edge into that `llmEngine`
node.  The source also binds `userQueryNode` but never reads it. -/
def validateWorkflow (nodes : List Node) (edges : List Edge) : ValidationResult :=
  let hasUserQuery := nodes.any (fun n => n.type == "userQuery")
  let hasOutput := nodes.any (fun n => n.type == "output")
  let hasLLM := nodes.any (fun n => n.type == "llmEngine")
  if !hasUserQuery || !hasOutput || !hasLLM then
    { valid := false, error := some missingComponentsMsg }
  else
    match nodes.find? (fun n => n.type == "llmEngine"),
          nodes.find? (fun n => n.type == "output") with
    | some llmNode, some outputNode =>
      let llmToOutput :=
        edges.any (fun e => e.source == llmNode.id && e.target == outputNode.id)
      if !llmToOutput then
        { valid := false, error := some llmToOutputMsg }
      else
        let hasInputToLLM := edges.any (fun e => e.target == llmNode.id)
        if !hasInputToLLM then
          { valid := false, error := some inputToLLMMsg }
        else
          { valid := true, error := none }
    | _, _ =>
      -- unreachable: `find?` succeeds whenever the corresponding `any`
      -- succeeded (the source dereferences the find result unchecked)
      { valid := false, error := none }

/-- Whether `needle` occurs as a contiguous substring of `s`. -/
def strContains (s needle : String) : Bool :=
  s.data.tails.any (fun t => needle.data.isPrefixOf t)

/-! ### The streaming chat client (`executeApi.chat`)

The response body is newline-delimited JSON.  Each complete line is
parsed and dispatched on its fields; we model a line after trimming and
parsing: blank (skipped), unparsable (the `JSON.parse` exception is
caught and logged), or a parsed event object carrying optional `chunk`,
`metadata` and `error` fields.  A JS field guard `if (data.chunk)` is a
truthiness test, so an empty-string field behaves like an absent one. -/

/-- A parsed stream line object: `{chunk?, metadata?, error?}`.  The
`metadata` payload is irrelevant to control flow, so it is kept as a
presence flag. -/
structure StreamEvent where
  chunk : Option String := none
  metadata : Bool := false
  error : Option String := none
  deriving Repr, DecidableEq

/-- JS truthiness of an optional string field: present and non-empty. -/
def truthyStr : Option String → Bool
  | some s => !(s == "")
  | none => false

/-- One line of the response stream, as seen by the dispatch code. -/
inductive StreamLine where
  | blank
  | malformed
  | parsed (ev : StreamEvent)
  deriving Repr, DecidableEq

/-- The body of the per-line `try` block: emit a chunk (appending to the
accumulated content), emit a metadata event, or `throw new
Error(data.error)`.  The thrown error is modelled as `Except.error`. -/
def handleLine (content : String) (ev : StreamEvent) :
    Except String (Option StreamEvent × String) :=
  if truthyStr ev.chunk then
    .ok (some ev, content ++ ev.chunk.getD "")
  else if ev.metadata then
    .ok (some ev, content)
  else if truthyStr ev.error then
    .error (ev.error.getD "")
  else
    .ok (none, content)

/-- One iteration of `for (const line of lines)`.  The accumulator is the
list of events passed to `onChunk` so far and `fullContent`.  Crucially,
the `catch (e)` that guards `JSON.parse` also catches the error thrown by
`handleLine`, so an error line only gets logged and the loop continues
unchanged. -/
def processLine (acc : List StreamEvent × String) (l : StreamLine) :
    List StreamEvent × String :=
  match l with
  | .blank => acc
  | .malformed => acc
  | .parsed ev =>
    match handleLine acc.2 ev with
    | .ok (e?, c) => (acc.1 ++ e?.toList, c)
    | .error _ => acc

/-- The whole line-dispatch loop of `executeApi.chat`, over the sequence
of complete lines of the response stream: the `onChunk` invocations in
order, and the final `fullContent`. -/
def chatStream (lines : List StreamLine) : List StreamEvent × String :=
  lines.foldl processLine ([], "")

/-- The value `executeApi.chat` resolves with after the stream ends. -/
structure ChatResult where
  content : String
  deriving Repr, DecidableEq

/-- After the reader reports `done`, the function returns
`{ content: fullContent }` — a normal completion, whatever lines were
seen. -/
def executeChat (lines : List StreamLine) : ChatResult :=
  ⟨(chatStream lines).2⟩

/-- The chunk texts a line sequence carries, in stream order (only truthy
`chunk` fields are delivered). -/
def chunkTexts (lines : List StreamLine) : List String :=
  lines.filterMap (fun l =>
    match l with
    | .parsed ev => if truthyStr ev.chunk then some (ev.chunk.getD "") else none
    | _ => none)

/-- The events of chunk-carrying lines, in stream order. -/
def chunkEvents (lines : List StreamLine) : List StreamEvent :=
  lines.filterMap (fun l =>
    match l with
    | .parsed ev => if truthyStr ev.chunk then some ev else none
    | _ => none)

/-! ### Template engine (backend, modelled from the spec)

The rendering code lives in the FastAPI backend, which is not among the
frontend sources; it is modelled here from spec §4.3.  Braces are
written with `\x7b`/`\x7d` escapes (`\x7b` is `{`, `\x7d` is `}`). -/

/-- Bindings for the two placeholder names of spec §4.3; an absent
binding renders as the empty string. -/
structure Bindings where
  context : Option String := none
  query : Option String := none
  deriving Repr, DecidableEq

/-- Modelled from the spec: the backend Template Engine is not among the
frontend sources.  Spec §4.3: replace every literal occurrence of
`\x7b\x7bcontext\x7d\x7d` / `\x7b\x7bquery\x7d\x7d` with the bound value,
the empty string when unbound; single left-to-right pass, no recursive
expansion. -/
def renderChars (b : Bindings) : List Char → List Char
  | '\x7b' :: '\x7b' :: 'c' :: 'o' :: 'n' :: 't' :: 'e' :: 'x' :: 't' :: '\x7d' :: '\x7d' :: rest =>
      (b.context.getD "").data ++ renderChars b rest
  | '\x7b' :: '\x7b' :: 'q' :: 'u' :: 'e' :: 'r' :: 'y' :: '\x7d' :: '\x7d' :: rest =>
      (b.query.getD "").data ++ renderChars b rest
  | c :: cs => c :: renderChars b cs
  | [] => []

/-- Modelled from the spec: `render(template, bindings)` of spec §4.3. -/
def render (template : String) (b : Bindings) : String :=
  ⟨renderChars b template.data⟩

/-! ### Topology resolver (backend, modelled from the spec)

The stage-list resolution also lives in the backend; modelled from spec
§4.2.  Stages are reported as the node kind strings in walk order. -/

/-- Structured validation failures of spec §4.2/§7. -/
inductive ResolveError where
  | missingComponent (kind : String)
  | duplicateComponent (kind : String)
  | missingEdge (which : String)
  | ambiguousTopology
  deriving Repr, DecidableEq

/-- Number of nodes of a given kind. -/
def kindCount (nodes : List Node) (t : String) : Nat :=
  (nodes.filter (fun n => n.type == t)).length

/-- Spec §3: duplicate edges are deduplicated silently at resolution
time. -/
def dedupEdges (edges : List Edge) : List Edge := edges.eraseDups

/-- Modelled from the spec: the forward walk of spec §4.2 step 4.  Follow
out-edges from the current node; more than one out-edge or in-edge at any
visited node is `AmbiguousTopologyError`.  Fuel bounds the walk (a cycle
that evades the degree checks cannot occur on a walk longer than the node
count; running out of fuel is reported as ambiguous). -/
def walk (edges : List Edge) : Nat → String → List String →
    Except ResolveError (List String)
  | 0, _, _ => .error .ambiguousTopology
  | fuel + 1, cur, acc =>
    let outs := edges.filter (fun e => e.source == cur)
    let ins := edges.filter (fun e => e.target == cur)
    if outs.length > 1 || ins.length > 1 then
      .error .ambiguousTopology
    else
      match outs with
      | [] => .ok (acc ++ [cur])
      | e :: _ => walk edges fuel e.target (acc ++ [cur])

/-- Modelled from the spec: the backend Topology Resolver (spec §4.2) is
not among the frontend sources.  Steps: kind counts (missing then
duplicate), the two load-bearing edge checks, then the forward walk from
`userQuery`; a disconnected `knowledgeBase` is simply never reached by
the walk and so is excluded.  Returns the stage kinds in walk order. -/
def resolveTopology (nodes : List Node) (edges : List Edge) :
    Except ResolveError (List String) :=
  if kindCount nodes "userQuery" == 0 then .error (.missingComponent "UserQuery")
  else if kindCount nodes "llmEngine" == 0 then .error (.missingComponent "LLMEngine")
  else if kindCount nodes "output" == 0 then .error (.missingComponent "Output")
  else if kindCount nodes "userQuery" > 1 then .error (.duplicateComponent "UserQuery")
  else if kindCount nodes "llmEngine" > 1 then .error (.duplicateComponent "LLMEngine")
  else if kindCount nodes "output" > 1 then .error (.duplicateComponent "Output")
  else if kindCount nodes "knowledgeBase" > 1 then .error (.duplicateComponent "KnowledgeBase")
  else
    match nodes.find? (fun n => n.type == "userQuery"),
          nodes.find? (fun n => n.type == "llmEngine"),
          nodes.find? (fun n => n.type == "output") with
    | some uq, some llm, some out =>
      let es := dedupEdges edges
      if !(es.any (fun e => e.target == llm.id)) then
        .error (.missingEdge "input to LLMEngine")
      else if !(es.any (fun e => e.source == llm.id && e.target == out.id)) then
        .error (.missingEdge "LLMEngine to Output")
      else
        match walk es (nodes.length + 1) uq.id [] with
        | .ok ids =>
          .ok (ids.filterMap (fun i =>
            (nodes.find? (fun n => n.id == i)).map (fun n => n.type)))
        | .error err => .error err
    | _, _, _ => .error (.missingComponent "unreachable")

end StackBuilder

namespace StackBuilder

/-! ## Shared helper lemmas -/

/-- `find?` on an appended list returns whatever it found in the first
part. -/
theorem find?_append_some {α : Type} (l1 l2 : List α) (p : α → Bool) (a : α)
    (h : l1.find? p = some a) : (l1 ++ l2).find? p = some a := by
  simp [List.find?_append, h]

/-- Characterisation of a valid verdict, given the first-found `llmEngine`
and `output` nodes. -/
theorem validate_valid_char (nodes : List Node) (edges : List Edge) (llm out : Node)
    (hl : nodes.find? (fun n => n.type == "llmEngine") = some llm)
    (ho : nodes.find? (fun n => n.type == "output") = some out) :
    (validateWorkflow nodes edges).valid = true ↔
      (nodes.any (fun n => n.type == "userQuery") = true ∧
       edges.any (fun e => e.source == llm.id && e.target == out.id) = true ∧
       edges.any (fun e => e.target == llm.id) = true) := by
  have hpl : (llm.type == "llmEngine") = true := by simpa using List.find?_some hl
  have hpo : (out.type == "output") = true := by simpa using List.find?_some ho
  have hLLMany : nodes.any (fun n => n.type == "llmEngine") = true :=
    List.any_eq_true.2 ⟨llm, List.mem_of_find?_eq_some hl, hpl⟩
  have hOutany : nodes.any (fun n => n.type == "output") = true :=
    List.any_eq_true.2 ⟨out, List.mem_of_find?_eq_some ho, hpo⟩
  by_cases hq : nodes.any (fun n => n.type == "userQuery") = true
  · by_cases hlo : edges.any (fun e => e.source == llm.id && e.target == out.id) = true
    · by_cases hin : edges.any (fun e => e.target == llm.id) = true
      · simp [validateWorkflow, hq, hLLMany, hOutany, hl, ho, hlo, hin]
      · simp [validateWorkflow, hq, hLLMany, hOutany, hl, ho, hlo, hin]
    · simp [validateWorkflow, hq, hLLMany, hOutany, hl, ho, hlo]
  · simp [validateWorkflow, hq, hLLMany, hOutany, hl, ho]

/-- A valid verdict pins down the witnessing nodes and edge checks. -/
theorem validate_valid_parts (nodes : List Node) (edges : List Edge)
    (h : (validateWorkflow nodes edges).valid = true) :
    ∃ llm out,
      nodes.find? (fun n => n.type == "llmEngine") = some llm ∧
      nodes.find? (fun n => n.type == "output") = some out ∧
      nodes.any (fun n => n.type == "userQuery") = true ∧
      edges.any (fun e => e.source == llm.id && e.target == out.id) = true ∧
      edges.any (fun e => e.target == llm.id) = true := by
  rcases hl : nodes.find? (fun n => n.type == "llmEngine") with _ | llm
  · exfalso
    have hLLM : nodes.any (fun n => n.type == "llmEngine") = false := by
      rw [← Bool.not_eq_true, List.any_eq_true]
      rintro ⟨x, hx, hpx⟩
      have hs : (nodes.find? (fun n => n.type == "llmEngine")).isSome :=
        List.find?_isSome.mpr ⟨x, hx, hpx⟩
      rw [hl] at hs
      simp at hs
    simp [validateWorkflow, hLLM] at h
  · rcases ho : nodes.find? (fun n => n.type == "output") with _ | out
    · exfalso
      have hOut : nodes.any (fun n => n.type == "output") = false := by
        rw [← Bool.not_eq_true, List.any_eq_true]
        rintro ⟨x, hx, hpx⟩
        have hs : (nodes.find? (fun n => n.type == "output")).isSome :=
          List.find?_isSome.mpr ⟨x, hx, hpx⟩
        rw [ho] at hs
        simp at hs
      simp [validateWorkflow, hOut] at h
    · exact ⟨llm, out, hl, ho, (validate_valid_char nodes edges llm out hl ho).1 h⟩

end StackBuilder

namespace StackBuilder

/-! ## Concrete graphs used by witnesses and counterexamples -/

/-- A user-query node. -/
def uqNode : Node := ⟨"u", "userQuery", .userQuery "User Query"⟩

/-- An LLM-engine node with the default configuration record. -/
def llmNode : Node :=
  ⟨"l", "llmEngine", (nodeDataFor "llmEngine").getD (.fallback "llmEngine")⟩

/-- A second LLM-engine node (distinct id). -/
def llmNode2 : Node :=
  ⟨"l2", "llmEngine", (nodeDataFor "llmEngine").getD (.fallback "llmEngine")⟩

/-- An output node. -/
def outNode : Node := ⟨"o", "output", .output "Output"⟩

/-- The minimal legal pipeline `UserQuery → LLMEngine → Output`. -/
def minimalNodes : List Node := [uqNode, llmNode, outNode]

/-- Edges of the minimal pipeline. -/
def minimalEdges : List Edge := [⟨"u", "l"⟩, ⟨"l", "o"⟩]

/-- A branch edge straight from the user-query node to the output node. -/
def branchEdge : Edge := ⟨"u", "o"⟩

end StackBuilder

namespace StackBuilder

/-- C1 counterexample: a graph with two `llmEngine` nodes for which
`validateWorkflow` nevertheless returns the valid verdict — the function
performs no duplicate-component check. -/
theorem duplicate_llm_validates_cex :
    ((minimalNodes ++ [llmNode2]).filter (fun n => n.type == "llmEngine")).length = 2 ∧
    validateWorkflow (minimalNodes ++ [llmNode2]) minimalEdges = ⟨true, none⟩ := by
  constructor
  · rfl
  · rfl

/-- C1 (amended): `validateWorkflow` has no duplicate check at all —
appending any nodes (in particular duplicate `userQuery` / `llmEngine` /
`output` / `knowledgeBase` nodes) to a graph with a valid verdict leaves
the verdict valid. -/
theorem validate_ignores_duplicate_nodes (nodes extra : List Node) (edges : List Edge)
    (h : (validateWorkflow nodes edges).valid = true) :
    (validateWorkflow (nodes ++ extra) edges).valid = true := by
  obtain ⟨llm, out, hl, ho, hq, hlo, hin⟩ := validate_valid_parts nodes edges h
  refine (validate_valid_char (nodes ++ extra) edges llm out
    (find?_append_some nodes extra _ llm hl)
    (find?_append_some nodes extra _ out ho)).2 ⟨?_, hlo, hin⟩
  simp [List.any_append, hq]

/-- Witness for C1 (amended) at the duplicate-LLM graph. -/
theorem validate_ignores_duplicate_nodes_witness :
    (validateWorkflow (minimalNodes ++ [llmNode2]) minimalEdges).valid = true :=
  validate_ignores_duplicate_nodes minimalNodes [llmNode2] minimalEdges (by rfl)

/-- C2 counterexample: a branching graph — `u` has two out-edges and `o`
two in-edges, both on the walk from the user-query node — which
`validateWorkflow` nevertheless accepts: no topology walk is performed. -/
theorem branching_validates_cex :
    ((minimalEdges ++ [branchEdge]).filter (fun e => e.source == "u")).length = 2 ∧
    ((minimalEdges ++ [branchEdge]).filter (fun e => e.target == "o")).length = 2 ∧
    validateWorkflow minimalNodes (minimalEdges ++ [branchEdge]) = ⟨true, none⟩ := by
  exact ⟨rfl, rfl, rfl⟩

/-- C2 (amended): `validateWorkflow` performs no walk and no degree
check — adding any extra edges (in particular branch edges) to a graph
with a valid verdict leaves the verdict valid. -/
theorem validate_ignores_extra_edges (nodes : List Node) (edges extra : List Edge)
    (h : (validateWorkflow nodes edges).valid = true) :
    (validateWorkflow nodes (edges ++ extra)).valid = true := by
  obtain ⟨llm, out, hl, ho, hq, hlo, hin⟩ := validate_valid_parts nodes edges h
  refine (validate_valid_char nodes (edges ++ extra) llm out hl ho).2 ⟨hq, ?_, ?_⟩
  · simp [List.any_append, hlo]
  · simp [List.any_append, hin]

/-- Witness for C2 (amended) at the branching graph. -/
theorem validate_ignores_extra_edges_witness :
    (validateWorkflow minimalNodes (minimalEdges ++ [branchEdge])).valid = true :=
  validate_ignores_extra_edges minimalNodes minimalEdges [branchEdge] (by rfl)

/-- C4: a graph lacking a `userQuery`, `llmEngine` or `output` node is
rejected with the missing-components message, and that message names each
of the three required kinds (hence in particular the missing one). -/
theorem validate_missing_component_fails (nodes : List Node) (edges : List Edge)
    (h : (∀ n ∈ nodes, n.type ≠ "userQuery") ∨
         (∀ n ∈ nodes, n.type ≠ "llmEngine") ∨
         (∀ n ∈ nodes, n.type ≠ "output")) :
    validateWorkflow nodes edges = ⟨false, some missingComponentsMsg⟩ ∧
    strContains missingComponentsMsg "User Query" = true ∧
    strContains missingComponentsMsg "LLM Engine" = true ∧
    strContains missingComponentsMsg "Output" = true := by
  refine ⟨?_, by decide, by decide, by decide⟩
  rcases h with h | h | h
  · have hq : nodes.any (fun n => n.type == "userQuery") = false := by
      rw [← Bool.not_eq_true, List.any_eq_true]
      rintro ⟨x, hx, hpx⟩
      exact h x hx (by simpa using hpx)
    simp [validateWorkflow, hq]
  · have hL : nodes.any (fun n => n.type == "llmEngine") = false := by
      rw [← Bool.not_eq_true, List.any_eq_true]
      rintro ⟨x, hx, hpx⟩
      exact h x hx (by simpa using hpx)
    simp [validateWorkflow, hL]
  · have hO : nodes.any (fun n => n.type == "output") = false := by
      rw [← Bool.not_eq_true, List.any_eq_true]
      rintro ⟨x, hx, hpx⟩
      exact h x hx (by simpa using hpx)
    simp [validateWorkflow, hO]

/-- Witness for C4: the empty graph is rejected with the
missing-components message. -/
theorem validate_missing_component_fails_witness :
    validateWorkflow [] [] = ⟨false, some missingComponentsMsg⟩ ∧
    strContains missingComponentsMsg "User Query" = true ∧
    strContains missingComponentsMsg "LLM Engine" = true ∧
    strContains missingComponentsMsg "Output" = true :=
  validate_missing_component_fails [] [] (.inl (by simp))

end StackBuilder

namespace StackBuilder

/-- C5: in a graph containing the three required kinds (so the first
check passes and `llm`/`out` are the first-found `llmEngine` and `output`
nodes), the two connectivity checks behave as specified: with no edge
into the `llmEngine` node validation fails with one of the two
missing-edge messages, with no edge from `llmEngine` to `output` it fails
with the connected-to-output message, and a valid verdict entails that
both edges exist. -/
theorem validate_missing_edge_fails (nodes : List Node) (edges : List Edge)
    (llm out : Node)
    (hq : nodes.any (fun n => n.type == "userQuery") = true)
    (hl : nodes.find? (fun n => n.type == "llmEngine") = some llm)
    (ho : nodes.find? (fun n => n.type == "output") = some out) :
    ((∀ e ∈ edges, e.target ≠ llm.id) →
       validateWorkflow nodes edges = ⟨false, some inputToLLMMsg⟩ ∨
       validateWorkflow nodes edges = ⟨false, some llmToOutputMsg⟩) ∧
    ((∀ e ∈ edges, ¬(e.source = llm.id ∧ e.target = out.id)) →
       validateWorkflow nodes edges = ⟨false, some llmToOutputMsg⟩) ∧
    ((validateWorkflow nodes edges).valid = true →
       edges.any (fun e => e.target == llm.id) = true ∧
       edges.any (fun e => e.source == llm.id && e.target == out.id) = true) := by
  have hpl : (llm.type == "llmEngine") = true := by simpa using List.find?_some hl
  have hpo : (out.type == "output") = true := by simpa using List.find?_some ho
  have hLLMany : nodes.any (fun n => n.type == "llmEngine") = true :=
    List.any_eq_true.2 ⟨llm, List.mem_of_find?_eq_some hl, hpl⟩
  have hOutany : nodes.any (fun n => n.type == "output") = true :=
    List.any_eq_true.2 ⟨out, List.mem_of_find?_eq_some ho, hpo⟩
  refine ⟨?_, ?_, ?_⟩
  · intro hno
    have hin : edges.any (fun e => e.target == llm.id) = false := by
      rw [← Bool.not_eq_true, List.any_eq_true]
      rintro ⟨e, he, hpe⟩
      exact hno e he (by simpa using hpe)
    by_cases hlo : edges.any (fun e => e.source == llm.id && e.target == out.id) = true
    · left
      simp [validateWorkflow, hq, hLLMany, hOutany, hl, ho, hlo, hin]
    · right
      simp [validateWorkflow, hq, hLLMany, hOutany, hl, ho, hlo]
  · intro hno
    have hlo : edges.any (fun e => e.source == llm.id && e.target == out.id) = false := by
      rw [← Bool.not_eq_true, List.any_eq_true]
      rintro ⟨e, he, hpe⟩
      refine hno e he ?_
      have := hpe
      simp [Bool.and_eq_true] at this
      exact this
    simp [validateWorkflow, hq, hLLMany, hOutany, hl, ho, hlo]
  · intro hv
    exact ⟨((validate_valid_char nodes edges llm out hl ho).1 hv).2.2,
           ((validate_valid_char nodes edges llm out hl ho).1 hv).2.1⟩

/-- Witness for C5 at the three required nodes with no edges at all. -/
theorem validate_missing_edge_fails_witness :
    ((∀ e ∈ ([] : List Edge), e.target ≠ llmNode.id) →
       validateWorkflow minimalNodes [] = ⟨false, some inputToLLMMsg⟩ ∨
       validateWorkflow minimalNodes [] = ⟨false, some llmToOutputMsg⟩) ∧
    ((∀ e ∈ ([] : List Edge), ¬(e.source = llmNode.id ∧ e.target = outNode.id)) →
       validateWorkflow minimalNodes [] = ⟨false, some llmToOutputMsg⟩) ∧
    ((validateWorkflow minimalNodes []).valid = true →
       ([] : List Edge).any (fun e => e.target == llmNode.id) = true ∧
       ([] : List Edge).any (fun e => e.source == llmNode.id && e.target == outNode.id) = true) :=
  validate_missing_edge_fails minimalNodes [] llmNode outNode (by rfl) (by rfl) (by rfl)

/-- C6: the minimal pipeline `UserQuery → LLMEngine → Output` (no
knowledge base) validates successfully, and the resolved stage list is
exactly `[userQuery, llmEngine, output]`. -/
theorem minimal_pipeline_valid_and_stages :
    validateWorkflow minimalNodes minimalEdges = ⟨true, none⟩ ∧
    resolveTopology minimalNodes minimalEdges = .ok ["userQuery", "llmEngine", "output"] := by
  exact ⟨rfl, rfl⟩

/-- C7 counterexample: `addNode` admits a node of unknown kind
`"banana"` (not one of the four known kinds) into the graph with the
fallback data record instead of rejecting it. -/
theorem addNode_accepts_unknown_kind_cex :
    (addNode "n1" "banana" ⟨[], [], none⟩).1.nodes =
      [⟨"n1", "banana", .fallback "banana"⟩] ∧
    (["userQuery", "knowledgeBase", "llmEngine", "output"].contains "banana") = false := by
  exact ⟨rfl, rfl⟩

/-- C7 (amended): the function `addNode` never rejects a creation request — for every
kind string it appends exactly one node carrying the requested kind, with
the known-kind defaults when the kind is known and the fallback
`{label: kind}` record otherwise. -/
theorem addNode_accepts_any_kind (id type : String) (st : WorkflowState) :
    (addNode id type st).1.nodes = st.nodes ++ [(addNode id type st).2] ∧
    (addNode id type st).1.edges = st.edges ∧
    (addNode id type st).2.type = type ∧
    (addNode id type st).2.data = (nodeDataFor type).getD (.fallback type) := by
  exact ⟨rfl, rfl, rfl, rfl⟩

/-- C10: `deleteNode` removes the node and every incident edge; no
surviving edge references the deleted id, and the invariant that every
edge endpoint names an existing node is preserved. -/
theorem deleteNode_preserves_edge_closure (st : WorkflowState) (nodeId : String)
    (hinv : ∀ e ∈ st.edges,
      (∃ n ∈ st.nodes, n.id = e.source) ∧ (∃ n ∈ st.nodes, n.id = e.target)) :
    (∀ n ∈ (deleteNode nodeId st).nodes, n.id ≠ nodeId) ∧
    (∀ e ∈ (deleteNode nodeId st).edges, e.source ≠ nodeId ∧ e.target ≠ nodeId) ∧
    (∀ e ∈ (deleteNode nodeId st).edges,
      (∃ n ∈ (deleteNode nodeId st).nodes, n.id = e.source) ∧
      (∃ n ∈ (deleteNode nodeId st).nodes, n.id = e.target)) := by
  refine ⟨?_, ?_, ?_⟩
  · intro n hn
    simp [deleteNode, List.mem_filter] at hn
    simpa using hn.2
  · intro e he
    simp [deleteNode, List.mem_filter] at he
    exact ⟨by simpa using he.2.1, by simpa using he.2.2⟩
  · intro e he
    simp [deleteNode, List.mem_filter] at he
    obtain ⟨hmem, hs, ht⟩ := he
    obtain ⟨⟨ns, hns, hnsid⟩, ⟨nt, hnt, hntid⟩⟩ := hinv e hmem
    constructor
    · refine ⟨ns, ?_, hnsid⟩
      simp [deleteNode, List.mem_filter, hns]
      rw [hnsid]
      simpa using hs
    · refine ⟨nt, ?_, hntid⟩
      simp [deleteNode, List.mem_filter, hnt]
      rw [hntid]
      simpa using ht

/-- Witness for C10: deleting the user-query node of the minimal pipeline
removes it together with its edge. -/
theorem deleteNode_preserves_edge_closure_witness :
    (∀ n ∈ (deleteNode "u" ⟨minimalNodes, minimalEdges, none⟩).nodes, n.id ≠ "u") ∧
    (∀ e ∈ (deleteNode "u" ⟨minimalNodes, minimalEdges, none⟩).edges,
      e.source ≠ "u" ∧ e.target ≠ "u") ∧
    (∀ e ∈ (deleteNode "u" ⟨minimalNodes, minimalEdges, none⟩).edges,
      (∃ n ∈ (deleteNode "u" ⟨minimalNodes, minimalEdges, none⟩).nodes, n.id = e.source) ∧
      (∃ n ∈ (deleteNode "u" ⟨minimalNodes, minimalEdges, none⟩).nodes, n.id = e.target)) :=
  deleteNode_preserves_edge_closure ⟨minimalNodes, minimalEdges, none⟩ "u" (by
    simp [minimalNodes, minimalEdges, uqNode, llmNode, outNode])

end StackBuilder

namespace StackBuilder

/-! ## Stream-ordering lemmas -/

/-- Folding string append starting from an appended seed. -/
theorem string_foldl_append (l : List String) :
    ∀ x y : String, l.foldl (· ++ ·) (x ++ y) = x ++ l.foldl (· ++ ·) y := by
  induction l with
  | nil => intro x y; rfl
  | cons a l ih =>
    intro x y
    show l.foldl (· ++ ·) ((x ++ y) ++ a) = x ++ l.foldl (· ++ ·) (y ++ a)
    rw [String.append_assoc, ih]

/-- `String.join` peels off its head. -/
theorem string_join_cons (a : String) (as : List String) :
    String.join (a :: as) = a ++ String.join as := by
  show as.foldl (· ++ ·) ("" ++ a) = a ++ as.foldl (· ++ ·) ""
  have h := string_foldl_append as a ""
  simpa using h

/-- The event (if any) a stream line causes to be passed to `onChunk`:
chunk lines and metadata lines are forwarded, everything else — blank
lines, unparsable lines, and error lines (whose thrown error the catch
block swallows) — is not. -/
def emitOf : StreamLine → Option StreamEvent
  | .parsed ev =>
    if truthyStr ev.chunk then some ev
    else if ev.metadata then some ev
    else none
  | _ => none

/-- Invariant of the line-dispatch loop: from any accumulator, the loop
appends exactly the forwarded events and the concatenated chunk texts. -/
theorem chatStream_fold (ls : List StreamLine) :
    ∀ acc : List StreamEvent × String,
      ls.foldl processLine acc =
        (acc.1 ++ ls.filterMap emitOf, acc.2 ++ String.join (chunkTexts ls)) := by
  induction ls with
  | nil =>
    intro acc
    cases acc
    simp [chunkTexts, String.join]
  | cons l ls ih =>
    intro acc
    cases l with
    | blank =>
      show ls.foldl processLine acc = _
      rw [ih]
      simp [emitOf, chunkTexts]
    | malformed =>
      show ls.foldl processLine acc = _
      rw [ih]
      simp [emitOf, chunkTexts]
    | parsed ev =>
      by_cases hc : truthyStr ev.chunk = true
      · show ls.foldl processLine (processLine acc (.parsed ev)) = _
        rw [show processLine acc (.parsed ev) =
              (acc.1 ++ [ev], acc.2 ++ ev.chunk.getD "") by
            simp [processLine, handleLine, hc]]
        rw [ih]
        simp [emitOf, chunkTexts, hc, string_join_cons, String.append_assoc]
      · by_cases hm : ev.metadata = true
        · show ls.foldl processLine (processLine acc (.parsed ev)) = _
          rw [show processLine acc (.parsed ev) = (acc.1 ++ [ev], acc.2) by
              simp [processLine, handleLine, hc, hm]]
          rw [ih]
          simp [emitOf, chunkTexts, hc, hm]
        · show ls.foldl processLine (processLine acc (.parsed ev)) = _
          rw [show processLine acc (.parsed ev) = acc by
              by_cases he : truthyStr ev.error = true <;>
                simp [processLine, handleLine, hc, hm, he]]
          rw [ih]
          simp [emitOf, chunkTexts, hc, hm]

/-- Among the forwarded events, the chunk-carrying ones are exactly the
chunk lines, in stream order. -/
theorem filter_emitted_chunks (ls : List StreamLine) :
    (ls.filterMap emitOf).filter (fun ev => truthyStr ev.chunk) = chunkEvents ls := by
  induction ls with
  | nil => rfl
  | cons l ls ih =>
    cases l with
    | blank => simpa [emitOf, chunkEvents] using ih
    | malformed => simpa [emitOf, chunkEvents] using ih
    | parsed ev =>
      by_cases hc : truthyStr ev.chunk = true
      · simp [emitOf, chunkEvents, hc, List.filter_cons, ih]
      · by_cases hm : ev.metadata = true
        · simp [emitOf, chunkEvents, hc, hm, List.filter_cons, ih]
        · simp [emitOf, chunkEvents, hc, hm, ih]

/-- C8: `executeApi.chat` delivers fragments in exactly the stream order
with no reordering — the `onChunk` invocations that carry a chunk are
precisely the chunk lines in order, and the final accumulated content is
the in-order concatenation of the delivered fragment texts. -/
theorem chat_fragments_in_order (lines : List StreamLine) :
    (chatStream lines).1 = lines.filterMap emitOf ∧
    (chatStream lines).1.filter (fun ev => truthyStr ev.chunk) = chunkEvents lines ∧
    (chatStream lines).2 = String.join (chunkTexts lines) ∧
    executeChat lines = ⟨String.join (chunkTexts lines)⟩ := by
  have h := chatStream_fold lines ([], "")
  have h1 : (chatStream lines).1 = lines.filterMap emitOf := by
    show (lines.foldl processLine ([], "")).1 = _
    rw [h]
    simp
  have h2 : (chatStream lines).2 = String.join (chunkTexts lines) := by
    show (lines.foldl processLine ([], "")).2 = _
    rw [h]
    simp
  refine ⟨h1, ?_, h2, ?_⟩
  · rw [h1, filter_emitted_chunks]
  · show ChatResult.mk (chatStream lines).2 = _
    rw [h2]

/-- The failing input of C3: the generation collaborator emits two
fragments and then an error-carrying event line. -/
def errLines : List StreamLine :=
  [.parsed { chunk := some "Hello" }, .parsed { chunk := some " world" },
   .parsed { error := some "model failed" }]

/-- C3 (code bug): on a stream of two fragments followed by an error
line, the caller observes the two fragments but then a *normal
completion* carrying their concatenation — no error event is forwarded
and no error is thrown to the caller, because the `throw new
Error(data.error)` is caught by the enclosing `catch` that guards
`JSON.parse` and is merely logged. -/
theorem chat_error_event_swallowed :
    chatStream errLines =
      ([{ chunk := some "Hello" }, { chunk := some " world" }], "Hello world") ∧
    executeChat errLines = ⟨"Hello world"⟩ ∧
    ((chatStream errLines).1.all (fun ev => !(truthyStr ev.error))) = true := by
  exact ⟨rfl, rfl, rfl⟩

end StackBuilder

namespace StackBuilder

/-- C9: `render` substitutes bound placeholders and renders unbound ones
as the empty string, never failing: for every bound value `v`,
`render "Q: \x7b\x7bquery\x7d\x7d" {query := v}` is `"Q: " ++ v`; with no
bindings it is `"Q: "`; and every occurrence of each placeholder is
replaced by its bound value. -/
theorem render_replaces_placeholders :
    (∀ v : String, render "Q: \x7b\x7bquery\x7d\x7d" { query := some v } = "Q: " ++ v) ∧
    render "Q: \x7b\x7bquery\x7d\x7d" {} = "Q: " ∧
    (∀ c q : String,
      render "\x7b\x7bcontext\x7d\x7d Q: \x7b\x7bquery\x7d\x7d \x7b\x7bquery\x7d\x7d"
        { context := some c, query := some q } = c ++ " Q: " ++ q ++ " " ++ q) := by
  refine ⟨?_, rfl, ?_⟩
  · intro v
    obtain ⟨l⟩ := v
    show String.mk ('Q' :: ':' :: ' ' :: (l ++ [])) = String.mk ("Q: ".data ++ l)
    simp
  · intro c q
    obtain ⟨lc⟩ := c
    obtain ⟨lq⟩ := q
    show String.mk (lc ++ ' ' :: 'Q' :: ':' :: ' ' :: (lq ++ ' ' :: (lq ++ []))) =
      String.mk ((((lc ++ " Q: ".data) ++ lq) ++ " ".data) ++ lq)
    simp

end StackBuilder
